import Mathlib

/-!
Verification of the agent control plane of the `deep-fractional.quest`
repository against its natural-language specification.

The Python sources are shallowly embedded as executable Lean definitions:

* `src/agent/middleware/tool_limit.py` — `ToolCallLimitMiddleware`
  (`_count_tool_calls`, `_check_limit` / `before_model`, `wrap_tool_call`);
* `src/agent/middleware/summarization.py` — `count_tokens_approximately`
  and `SummarizationMiddleware._trim_messages` (including the behaviour of
  `langchain_core.messages.utils.trim_messages` with `strategy="last"`,
  which the middleware delegates to);
* `src/agent/persistence/checkpointer.py` — `init_checkpointer`, and the
  module-level try/except around `_init_checkpointer_sync` in
  `src/agent/main.py`;
* `src/agent/tools/onboarding.py` — `get_profile_status`,
  `confirm_role_preference`, `confirm_trinity`, `confirm_location`,
  `confirm_search_prefs`.

Machine integers are Nat/Int (Python ints are unbounded, so no wrap-around
modelling is needed); Python string contents that matter only through their
length are modelled by their character counts; exceptions are modelled as
explicit outcome constructors.
-/

namespace FQ

/-! ## Message model

LangChain messages, restricted to the structure the control plane inspects:
the message class (system / human / ai / tool), the character length of the
`content` string, and for AI messages the list of tool-call requests (each
with a call id and the character length of `str(tc.get('args', {}))`).
For tool messages we record the originating call id (`tool_call_id`). -/

structure ToolCall where
  id : Nat
  argChars : Nat
  deriving DecidableEq

inductive Msg where
  | system (content : Nat)
  | human (content : Nat)
  | ai (content : Nat) (toolCalls : List ToolCall)
  | tool (content : Nat) (callId : Nat)
  deriving DecidableEq

/-- Character count contributed by one message in
`count_tokens_approximately`: `len(content)` plus, when the message has a
non-empty `tool_calls` attribute (only AI messages do), the lengths of the
stringified args. -/
def Msg.chars : Msg → Nat
  | .system c => c
  | .human c => c
  | .ai c tcs => c + (tcs.map ToolCall.argChars).sum
  | .tool c _ => c

/-- `count_tokens_approximately` (summarization.py lines 24-41):
sum of character counts over all messages, divided by 4 (Python `// 4`). -/
def countTokensApproximately (msgs : List Msg) : Nat :=
  (msgs.map Msg.chars).sum / 4

def Msg.isSystem : Msg → Bool
  | .system _ => true
  | _ => false

def Msg.isHuman : Msg → Bool
  | .human _ => true
  | _ => false

def Msg.isTool : Msg → Bool
  | .tool _ _ => true
  | _ => false

/-! ## Tool Call Governor — `ToolCallLimitMiddleware` (tool_limit.py) -/

/-- `_count_tool_calls` (tool_limit.py lines 84-90): total number of
tool-call requests over messages carrying a non-empty `tool_calls`
attribute; in LangChain only AI (assistant) messages carry it. -/
def countToolCalls (msgs : List Msg) : Nat :=
  (msgs.map fun m => match m with
    | .ai _ tcs => tcs.length
    | _ => 0).sum

/-- The middleware's mutable fields (`__init__`, tool_limit.py lines 62-78). -/
structure GovernorState where
  maxCalls : Nat := 50
  warnAtPercentage : Nat := 80
  currentThread : Option String := none
  callCount : Nat := 0
  warned : Bool := false
  deriving DecidableEq

/-- `int(self.max_calls * self.warn_at_percentage / 100)` (tool_limit.py
lines 114 and 159): Python true division followed by `int()` truncation;
for the non-negative integers involved this is floor division. -/
def warnThreshold (s : GovernorState) : Nat :=
  s.maxCalls * s.warnAtPercentage / 100

/-- Result of `_check_limit` (tool_limit.py lines 92-125).  `raised` is
true when `MaxToolCallsExceeded` is raised at line 125 (after the state
mutations above it already happened); `warningEmitted` is true when the
one-time advisory `print` at line 117 ran. -/
structure CheckOutcome where
  state : GovernorState
  warningEmitted : Bool
  raised : Bool
  deriving DecidableEq

/-- `_check_limit(state, runtime)` (tool_limit.py lines 92-125): reset the
counter and warned flag when the observed thread id changes, recompute the
counter from the message history, emit the advisory once per thread when
the warn threshold is reached, then raise when the hard limit is reached. -/
def checkLimit (s : GovernorState) (threadId : String) (messages : List Msg) :
    CheckOutcome :=
  let s1 := if s.currentThread = some threadId then s
    else { s with currentThread := some threadId, callCount := 0, warned := false }
  let s2 := { s1 with callCount := countToolCalls messages }
  let fire := decide (warnThreshold s2 ≤ s2.callCount) && !s2.warned
  let s3 := if fire then { s2 with warned := true } else s2
  { state := s3, warningEmitted := fire, raised := decide (s3.maxCalls ≤ s3.callCount) }

/-- `before_model` (tool_limit.py lines 127-130) just runs `_check_limit`,
so a raise here aborts the turn before the model is invoked. -/
def beforeModel (s : GovernorState) (threadId : String) (messages : List Msg) :
    CheckOutcome :=
  checkLimit s threadId messages

/-- Result of `wrap_tool_call` (tool_limit.py lines 147-167).
`dispatched` means control reached `return handler(request)` — the
underlying tool handler was invoked; `raisedLimit` means
`MaxToolCallsExceeded(limit, current)` was raised first and the handler
was NOT invoked. -/
inductive WrapOutcome where
  | dispatched (state : GovernorState) (warningEmitted : Bool)
  | raisedLimit (limit current : Nat) (state : GovernorState)
  deriving DecidableEq

/-- `wrap_tool_call` (tool_limit.py lines 147-167): increment the counter,
raise when the new counter has reached the limit (`>=`), otherwise emit the
one-time warning when the threshold is reached, then invoke the handler.
`awrap_tool_call` (lines 169-187) is textually identical up to `await`. -/
def wrapToolCall (s : GovernorState) : WrapOutcome :=
  let s1 := { s with callCount := s.callCount + 1 }
  if s1.maxCalls ≤ s1.callCount then
    .raisedLimit s1.maxCalls s1.callCount s1
  else if decide (warnThreshold s1 ≤ s1.callCount) && !s1.warned then
    .dispatched { s1 with warned := true } true
  else
    .dispatched s1 false

/-- State after `n` consecutive dispatch attempts through
`wrap_tool_call`, all of which invoked the handler; `none` as soon as one
attempt raised `MaxToolCallsExceeded` instead. -/
def attempts (s : GovernorState) : Nat → Option GovernorState
  | 0 => some s
  | n + 1 =>
    match attempts s n with
    | some s' =>
      match wrapToolCall s' with
      | .dispatched s'' _ => some s''
      | .raisedLimit _ _ _ => none
    | none => none

/-- Fully evaluated governor state after `k` dispatched calls starting
from a fresh (per-thread) state: counter `k`, warned exactly when some
dispatched call has reached the warn threshold. -/
def stateAfter (m pct : Nat) (k : Nat) : GovernorState :=
  { maxCalls := m, warnAtPercentage := pct, currentThread := none,
    callCount := k,
    warned := decide (1 ≤ k) && decide (m * pct / 100 ≤ k) }

/-! ## History Compactor — `SummarizationMiddleware` (summarization.py)

`_trim_messages` (lines 96-151) delegates the inner trimming step to
`langchain_core.messages.utils.trim_messages(strategy="last",
token_counter=count_tokens_approximately, max_tokens=available_tokens,
start_on="human", end_on=("human","tool"), include_system=False,
allow_partial=False)`.  That library call (an external collaborator of
this repository) does, for these parameters:

1. pop messages from the END while the last one is not of an `end_on`
   class (human or tool);
2. keep the longest SUFFIX of the rest whose `token_counter` is at most
   `max_tokens` (the library uses a search over prefix lengths of the
   reversed list, which for the monotone counter used here computes
   exactly the longest fitting suffix);
3. drop messages from the FRONT of that suffix until it starts with a
   `start_on` (human) message, possibly emptying it.

`trimLast` below embeds that contract; `trimMessages` embeds
`_trim_messages` itself. -/

/-- A message satisfies `end_on=("human","tool")`. -/
def endOnOk (m : Msg) : Bool :=
  m.isHuman || m.isTool

/-- Step 1: pop from the end while the last message is not human/tool. -/
def dropTrailingNonEnd (msgs : List Msg) : List Msg :=
  (msgs.reverse.dropWhile (fun m => !endOnOk m)).reverse

/-- Step 2: longest suffix whose approximate token count fits in `avail`
(`avail` is an `Int` because `_trim_messages` computes it as
`max_tokens - system_tokens`, which can be negative). Returns `[]` when
not even the empty suffix fits, matching the library's index search
bottoming out at 0. -/
def maxFittingSuffix (avail : Int) : List Msg → List Msg
  | [] => []
  | m :: rest =>
    if (countTokensApproximately (m :: rest) : Int) ≤ avail then m :: rest
    else maxFittingSuffix avail rest

/-- The `trim_messages(..., strategy="last", start_on="human",
end_on=("human","tool"))` call at summarization.py lines 128-136. -/
def trimLast (msgs : List Msg) (avail : Int) : List Msg :=
  (maxFittingSuffix avail (dropTrailingNonEnd msgs)).dropWhile fun m => !m.isHuman

/-- Is the first message a `SystemMessage`?  (`isinstance(messages[0],
SystemMessage)` at summarization.py line 119.) -/
def headIsSystem : List Msg → Bool
  | [] => false
  | m :: _ => m.isSystem

/-- `SummarizationMiddleware.__init__` configuration (lines 73-89). -/
structure SummarizationConfig where
  maxTokens : Nat := 8000
  keepSystemMessage : Bool := true
  keepRecentMessages : Nat := 6
  deriving DecidableEq

/-- The extracted system message of the trim path (summarization.py lines
116-121): `[messages[0]]` when `keep_system_message` is set and the first
message is a `SystemMessage`, else nothing. -/
def sysPartOf (cfg : SummarizationConfig) (messages : List Msg) : List Msg :=
  if cfg.keepSystemMessage && headIsSystem messages then messages.take 1 else []

/-- `remaining_messages` of the trim path (lines 117-121). -/
def remainingOf (cfg : SummarizationConfig) (messages : List Msg) : List Msg :=
  if cfg.keepSystemMessage && headIsSystem messages then messages.tail else messages

/-- `available_tokens = self.max_tokens - system_tokens` (lines 124-125);
an `Int` because the system message may cost more than the budget. -/
def availOf (cfg : SummarizationConfig) (messages : List Msg) : Int :=
  (cfg.maxTokens : Int) - countTokensApproximately (sysPartOf cfg messages)

/-- Lines 128-140: the `trim_messages` call followed by the recency-floor
override `remaining_messages[-keep_recent_messages:]` taken when the
trimmed suffix is shorter than `keep_recent_messages` and the remaining
history is at least that long. -/
def keptCore (keep : Nat) (rem : List Msg) (av : Int) : List Msg :=
  if (trimLast rem av).length < keep ∧ keep ≤ rem.length then
    rem.drop (rem.length - keep)
  else trimLast rem av

/-- The kept (non-system) part of the trim path's output. -/
def keptOf (cfg : SummarizationConfig) (messages : List Msg) : List Msg :=
  keptCore cfg.keepRecentMessages (remainingOf cfg messages) (availOf cfg messages)

/-- `_trim_messages` (summarization.py lines 96-151).  The leading
`if not messages: return messages` branch coincides with the no-op branch
because an empty history has approximate cost 0 ≤ max_tokens.  The final
result is `[system_message] + trimmed` (lines 143-151). -/
def trimMessages (cfg : SummarizationConfig) (messages : List Msg) : List Msg :=
  if countTokensApproximately messages ≤ cfg.maxTokens then messages
  else sysPartOf cfg messages ++ keptOf cfg messages

/-- Call ids offered by a message's tool-call requests (AI messages only). -/
def callIdsOf (m : Msg) : List Nat :=
  match m with
  | .ai _ tcs => tcs.map ToolCall.id
  | _ => []

/-- Auxiliary scan for `noSplitPairs`: `avail` collects the call ids of
tool-call requests seen so far. -/
def noSplitPairsAux (avail : List Nat) : List Msg → Bool
  | [] => true
  | m :: rest =>
    (match m with
      | .tool _ c => avail.contains c
      | _ => true) && noSplitPairsAux (avail ++ callIdsOf m) rest

/-- Pairing invariant of the spec: every tool-result message is preceded
by the assistant message containing its originating call id. -/
def noSplitPairs (msgs : List Msg) : Bool :=
  noSplitPairsAux [] msgs

/-! ## Checkpoint Store initialization (persistence/checkpointer.py, main.py) -/

/-- `a == b` on chars, used by the substring check below. -/
def listStartsWith : List Char → List Char → Bool
  | [], _ => true
  | _ :: _, [] => false
  | a :: as, b :: bs => a == b && listStartsWith as bs

/-- Naive substring occurrence check over char lists. -/
def listHasSub (needle : List Char) : List Char → Bool
  | [] => listStartsWith needle []
  | c :: t => listStartsWith needle (c :: t) || listHasSub needle t

/-- `"already exists" in str(e).lower()` (checkpointer.py line 50). -/
def mentionsAlreadyExists (msg : String) : Bool :=
  listHasSub "already exists".toList (msg.toList.map Char.toLower)

/-- Outcome of the (opaque, external) `AsyncPostgresSaver.setup()` call:
either it succeeds or it raises with some message. -/
inductive SetupResult where
  | ok
  | fail (msg : String)
  deriving DecidableEq

/-- Outcome of the (opaque, external) connection-creation step
`AsyncPostgresSaver.from_conn_string(database_url)` followed by
`await _context_manager.__aenter__()` (checkpointer.py lines 38-39):
either it yields a checkpointer instance or it raises with some message.
Unlike `setup()`, this step is NOT wrapped in any try/except, so a
failure here propagates out of `init_checkpointer`. -/
inductive ConnectResult where
  | ok
  | fail (msg : String)
  deriving DecidableEq

/-- Did the connection-creation step raise? -/
def ConnectResult.isFail : ConnectResult → Bool
  | .ok => false
  | .fail _ => true

/-- The checkpointer module's global flags (checkpointer.py lines 17-19):
whether `_checkpointer` has been created and whether `_setup_done`. -/
structure CheckpointerState where
  checkpointerCreated : Bool := false
  setupDone : Bool := false
  deriving DecidableEq

/-- Result of one `init_checkpointer()` call: `raisedErr` is the exception
it propagates (the missing-`DATABASE_URL` `RuntimeError`, or an error of
the uncaught connection-creation step), `state` the resulting module
globals. -/
structure InitOutcome where
  raisedErr : Option String
  state : CheckpointerState
  deriving DecidableEq

/-- The `setup()` block of `init_checkpointer` (checkpointer.py lines
42-56), run when `_setup_done` is not yet set: EVERY failure of
`self._checkpointer.setup()` is caught — an "already exists" message is
treated as already provisioned, any other message merely logged — and
`_setup_done` is set True in all branches, so this block never raises. -/
def finishSetup (st : CheckpointerState) (setup : SetupResult) : InitOutcome :=
  if st.setupDone then { raisedErr := none, state := st }
  else
    match setup with
    | .ok => { raisedErr := none, state := { st with setupDone := true } }
    | .fail msg =>
      if mentionsAlreadyExists msg then
        { raisedErr := none, state := { st with setupDone := true } }
      else
        -- checkpointer.py lines 53-55: warning printed, then
        -- `_setup_done = True  # Continue anyway, tables might exist`
        { raisedErr := none, state := { st with setupDone := true } }

/-- `init_checkpointer` (checkpointer.py lines 22-57).  `databaseUrl` is
`os.environ.get("DATABASE_URL")` (`none` = unset; Python also treats the
empty string as falsy).  `connect` is the outcome the connection-creation
step at lines 38-39 would have — consulted only when `_checkpointer is
None`, and propagated as a raise (with the module globals unchanged, in
particular `_checkpointer` still `None`) when it fails.  `setup` is the
outcome the `setup()` call would have; per `finishSetup` it never
propagates. -/
def initCheckpointer (databaseUrl : Option String) (st : CheckpointerState)
    (connect : ConnectResult) (setup : SetupResult) : InitOutcome :=
  if databaseUrl.getD "" = "" then
    { raisedErr := some "DATABASE_URL not set for checkpointer", state := st }
  else if st.checkpointerCreated then
    finishSetup st setup
  else
    match connect with
    | .fail msg => { raisedErr := some msg, state := st }
    | .ok => finishSetup { st with checkpointerCreated := true } setup

/-- The module-level startup in main.py lines 55-58 wraps
`_init_checkpointer_sync()` in `try/except Exception`, printing a warning;
process startup therefore continues whether or not `init_checkpointer`
raised.  Returns `true` iff module import (process startup) aborts. -/
def startupAborts (databaseUrl : Option String) (st : CheckpointerState)
    (connect : ConnectResult) (setup : SetupResult) : Bool :=
  match (initCheckpointer databaseUrl st connect setup).raisedErr with
  | some _ => false
  | none => false

/-! ## Onboarding tools (tools/onboarding.py) -/

/-- Python `str.strip()` with no argument: remove leading and trailing
whitespace.  Implemented over the character list so that concrete values
reduce in the kernel. -/
def stripChars (l : List Char) : List Char :=
  ((l.dropWhile Char.isWhitespace).reverse.dropWhile Char.isWhitespace).reverse

/-- `v.lower().strip()` — the normalization applied both by the Pydantic
field validators and again in the tool bodies. -/
def pyNormalize (s : String) : String :=
  String.mk (stripChars (s.toList.map Char.toLower))

def VALID_ROLES : List String := ["cto", "cfo", "cmo", "coo", "cpo", "other"]
def VALID_TRINITY : List String := ["fractional", "interim", "advisory", "open"]
def VALID_REMOTE : List String := ["remote", "hybrid", "onsite", "flexible"]
def VALID_AVAILABILITY : List String := ["immediately", "1_month", "3_months", "flexible"]

/-- A database write the tools can issue through the Neon client. -/
inductive DbWrite where
  | updateRolePreference (userId role : String)
  | updateTrinity (userId engagementType : String)
  | updateLocation (userId location remote : String)
  | updateSearchPrefs (userId : String) (dayRateMin dayRateMax : Int)
      (availability : String)
  deriving DecidableEq

/-- Result envelope of an onboarding tool, together with the list of
persistence-client invocations the call issued (`writes = []` means the
Neon client was never invoked).  The tools are Python `async def`s wholly
made of returns — the embedding is a total function, matching the fact
that no code path raises for domain failures. -/
structure ToolOut where
  success : Bool
  error : Option String := none
  fields : List (String × String) := []
  message : String := ""
  writes : List DbWrite := []
  deriving DecidableEq

/-- Truthiness of `user_id` (`if user_id:`) — present and non-empty. -/
def truthyId : Option String → Bool
  | some s => s ≠ ""
  | none => false

/-- `confirm_role_preference` (onboarding.py lines 242-278).
`clientAvailable` models `_get_neon_client()` returning a client rather
than `None`; a persistence failure is caught inside the tool (lines
269-270) and does not change the returned envelope, so it is not a
parameter. -/
def confirmRolePreference (role : String) (userId : Option String)
    (clientAvailable : Bool) : ToolOut :=
  let normalized := pyNormalize role
  if ¬ VALID_ROLES.contains normalized then
    { success := false
      error := some ("Invalid role. Please choose from: " ++ String.intercalate ", " VALID_ROLES) }
  else
    { success := true
      fields := [("role_preference", normalized), ("current_step", "1"),
                 ("next_step", "trinity")]
      message := "Great! I've noted your preference for " ++
        normalized.map Char.toUpper ++ " roles."
      writes :=
        if truthyId userId && clientAvailable then
          [.updateRolePreference ((userId.getD "")) normalized]
        else [] }

/-- `confirm_trinity` (onboarding.py lines 281-317). -/
def confirmTrinity (engagementType : String) (userId : Option String)
    (clientAvailable : Bool) : ToolOut :=
  let normalized := pyNormalize engagementType
  if ¬ VALID_TRINITY.contains normalized then
    { success := false
      error := some ("Invalid type. Please choose from: " ++ String.intercalate ", " VALID_TRINITY) }
  else
    { success := true
      fields := [("trinity", normalized), ("current_step", "2"),
                 ("next_step", "experience")]
      message := "Perfect! You're looking for " ++ normalized ++ " opportunities."
      writes :=
        if truthyId userId && clientAvailable then
          [.updateTrinity (userId.getD "") normalized]
        else [] }

/-- `confirm_location` (onboarding.py lines 361-399). -/
def confirmLocation (location remotePreference : String) (userId : Option String)
    (clientAvailable : Bool) : ToolOut :=
  let remoteNorm := pyNormalize remotePreference
  if ¬ VALID_REMOTE.contains remoteNorm then
    { success := false
      error := some ("Invalid preference. Choose from: " ++ String.intercalate ", " VALID_REMOTE) }
  else
    { success := true
      fields := [("location", location.trim), ("remote_preference", remoteNorm),
                 ("current_step", "4"), ("next_step", "search_prefs")]
      message := "Location: " ++ location ++ ", preference: " ++ remoteNorm ++ "."
      writes :=
        if truthyId userId && clientAvailable then
          [.updateLocation (userId.getD "") location.trim remoteNorm]
        else [] }

/-- `confirm_search_prefs` (onboarding.py lines 402-453): the availability
enum is validated first, then `day_rate_min > day_rate_max`; both error
paths return before the persistence block is reached. -/
def confirmSearchPrefs (dayRateMin dayRateMax : Int) (availability : String)
    (userId : Option String) (clientAvailable : Bool) : ToolOut :=
  let availNorm := pyNormalize availability
  if ¬ VALID_AVAILABILITY.contains availNorm then
    { success := false
      error := some ("Invalid availability. Choose from: " ++ String.intercalate ", " VALID_AVAILABILITY) }
  else if dayRateMax < dayRateMin then
    { success := false
      error := some "Minimum rate cannot exceed maximum rate." }
  else
    { success := true
      fields := [("day_rate_min", toString dayRateMin),
                 ("day_rate_max", toString dayRateMax),
                 ("availability", availNorm),
                 ("current_step", "5"), ("next_step", "complete")]
      message := "Rate range: " ++ toString dayRateMin ++ "-" ++
        toString dayRateMax ++ "/day, available: " ++ availNorm ++ "."
      writes :=
        if truthyId userId && clientAvailable then
          [.updateSearchPrefs (userId.getD "") dayRateMin dayRateMax availNorm]
        else [] }

/-! ### `get_profile_status` (onboarding.py lines 152-235) -/

/-- Profile row as the tool reads it (`profile.get(...)` with the
defaults the source uses).  String fields are `Option String` where
`some ""` is falsy like `none` under Python truthiness. -/
structure Profile where
  rolePreference : Option String := none
  trinity : Option String := none
  experienceYears : Option Int := none
  industries : List String := []
  location : Option String := none
  remotePreference : Option String := none
  dayRateMin : Option Int := none
  dayRateMax : Option Int := none
  availability : Option String := none
  onboardingCompleted : Bool := false
  deriving DecidableEq

/-- Python truthiness of an optional string field. -/
def truthyStr : Option String → Bool
  | some s => s ≠ ""
  | none => false

/-- How the profile read can go: the Neon client is unavailable
(`_get_neon_client()` returned `None`), the awaited `client.get_profile`
raised, it found no row, or it returned a row. -/
inductive DbRead where
  | unavailable
  | errored (msg : String)
  | notFound
  | found (p : Profile)
  deriving DecidableEq

/-- The record `get_profile_status` returns; every return path of the
source populates exactly these keys. -/
structure ProfileStatus where
  success : Bool
  isNewUser : Bool
  onboardingCompleted : Bool
  currentStep : Nat
  profile : Option Profile
  message : String
  deriving DecidableEq

/-- The step computation at onboarding.py lines 193-205: each `if`
overwrites the previous value, so the LAST satisfied test wins. -/
def currentStepOf (p : Profile) : Nat :=
  let s0 : Nat := 0
  let s1 := if truthyStr p.rolePreference then 1 else s0
  let s2 := if truthyStr p.trinity then 2 else s1
  let s3 := if p.experienceYears.isSome then 3 else s2
  let s4 := if truthyStr p.location then 4 else s3
  let s5 := if p.dayRateMin.isSome then 5 else s4
  if p.onboardingCompleted then 6 else s5

/-- `get_profile_status` (onboarding.py lines 152-235): total over every
database outcome, including an unavailable client and a raising read
(the `except Exception` at line 226 converts the latter into an error
envelope instead of propagating). -/
def getProfileStatus (db : DbRead) : ProfileStatus :=
  match db with
  | .unavailable =>
    { success := false, isNewUser := true, onboardingCompleted := false,
      currentStep := 0, profile := none,
      message := "Database not available - treat as new user" }
  | .errored msg =>
    { success := false, isNewUser := true, onboardingCompleted := false,
      currentStep := 0, profile := none,
      message := "Error reading profile: " ++ msg }
  | .notFound =>
    { success := true, isNewUser := true, onboardingCompleted := false,
      currentStep := 0, profile := none,
      message := "New user - start onboarding" }
  | .found p =>
    { success := true, isNewUser := false,
      onboardingCompleted := p.onboardingCompleted,
      currentStep := currentStepOf p, profile := some p,
      message :=
        if p.onboardingCompleted then "Onboarding complete - ready for job search"
        else "Resume onboarding at step " ++ toString (currentStepOf p + 1) }

/-- Fresh middleware state as built by `__init__` with the given limits. -/
def freshGov (m pct : Nat) : GovernorState :=
  { maxCalls := m, warnAtPercentage := pct }

/-- Warning flag reported by a `wrap_tool_call` outcome (false when the
call raised, since the raise precedes the warning check). -/
def WrapOutcome.warnFlag : WrapOutcome → Bool
  | .dispatched _ w => w
  | .raisedLimit _ _ _ => false

end FQ

namespace FQ

/-! ## Governor lemmas -/

lemma attempts_eq_stateAfter (m pct : Nat) :
    ∀ k, k < m → attempts (freshGov m pct) k = some (stateAfter m pct k) := by
  intro k
  induction k with
  | zero =>
    intro _
    simp [attempts, freshGov, stateAfter]
  | succ k ih =>
    intro hk
    have hk' : k < m := Nat.lt_of_succ_lt hk
    unfold attempts
    rw [ih hk']
    have hlim : ¬ (m ≤ k + 1) := by omega
    by_cases hthr : m * pct / 100 ≤ k + 1 <;>
      by_cases hk1 : 1 ≤ k <;>
      by_cases hthr' : m * pct / 100 ≤ k <;>
      simp [wrapToolCall, stateAfter, warnThreshold, hlim, hthr, hk1, hthr',
        GovernorState.mk.injEq] <;> omega

end FQ

namespace FQ

/-- C1 counterexample.  The claim instantiated at `max_calls = 2` predicts
that the first two dispatch attempts both invoke the handler and only the
third raises.  In the code (`wrap_tool_call` increments, then checks
`self._call_count >= self.max_calls` BEFORE calling the handler) the
second attempt already raises `MaxToolCallsExceeded(2, 2)` and the handler
is not invoked for it. -/
theorem governor_budget_claim_false :
    (attempts (freshGov 2 80) 1 =
      some { freshGov 2 80 with callCount := 1, warned := true }) ∧
    attempts (freshGov 2 80) 2 = none ∧
    wrapToolCall { freshGov 2 80 with callCount := 1, warned := true } =
      .raisedLimit 2 2 { freshGov 2 80 with callCount := 2, warned := true } := by
  decide

/-- C1 amended: starting from a fresh per-thread governor state with
`max_calls = m ≥ 1`, each of the first `m - 1` dispatch attempts invokes
the handler, and the `m`-th attempt raises `MaxToolCallsExceeded(m, m)`
without invoking the handler (the `raisedLimit` outcome is produced before
`handler(request)` is reached). -/
theorem governor_raises_on_maxth_attempt (m pct : Nat) (h : 1 ≤ m) :
    (∀ k, k < m → (attempts (freshGov m pct) k).isSome) ∧
    ∃ s', attempts (freshGov m pct) (m - 1) = some s' ∧
      s'.callCount = m - 1 ∧
      wrapToolCall s' = .raisedLimit m m { s' with callCount := m } := by
  refine ⟨fun k hk => ?_, stateAfter m pct (m - 1),
    attempts_eq_stateAfter m pct (m - 1) (by omega), rfl, ?_⟩
  · rw [attempts_eq_stateAfter m pct k hk]; rfl
  · have hm : m - 1 + 1 = m := by omega
    simp [wrapToolCall, stateAfter, hm]

/-- Witness for `governor_raises_on_maxth_attempt` at `m = 3, pct = 80`. -/
theorem governor_raises_on_maxth_attempt_witness :
    (∀ k, k < 3 → (attempts (freshGov 3 80) k).isSome) ∧
    ∃ s', attempts (freshGov 3 80) (3 - 1) = some s' ∧
      s'.callCount = 3 - 1 ∧
      wrapToolCall s' = .raisedLimit 3 3 { s' with callCount := 3 } :=
  governor_raises_on_maxth_attempt 3 80 (by decide)

/-- C7: `before_model` recomputes the per-thread counter from the message
history — the resulting counter always equals the total number of
tool-call requests in the history's assistant messages, regardless of the
previously stored counter — and the turn is aborted (raise) exactly when
that recomputed counter is at or above `max_calls`, before any model
invocation (`before_model` runs `_check_limit` and nothing else). -/
theorem governor_recomputes_from_history (s : GovernorState) (tid : String)
    (msgs : List Msg) :
    (beforeModel s tid msgs).state.callCount = countToolCalls msgs ∧
    (beforeModel s tid msgs).raised = decide (s.maxCalls ≤ countToolCalls msgs) ∧
    beforeModel s tid msgs = checkLimit s tid msgs := by
  refine ⟨?_, ?_, rfl⟩ <;>
  · unfold beforeModel checkLimit
    by_cases ht : s.currentThread = some tid <;>
      by_cases hf : s.maxCalls * s.warnAtPercentage / 100 ≤ countToolCalls msgs <;>
      by_cases hw : s.warned <;>
      simp [warnThreshold, ht, hf, hw]

/-- C4 counterexample.  With `max_calls = 7, warn_at_percentage = 80` the
claim's threshold is `ceil(7*80/100) = 6`, so no warning should fire on a
check where the counter is 5; the code computes
`int(7 * 80 / 100) = 5` (truncation) and does fire the advisory at 5. -/
theorem governor_warning_ceil_claim_false :
    (checkLimit (freshGov 7 80) "t"
      [.ai 0 [⟨1, 0⟩, ⟨2, 0⟩, ⟨3, 0⟩, ⟨4, 0⟩, ⟨5, 0⟩]]).warningEmitted = true ∧
    countToolCalls [.ai 0 [⟨1, 0⟩, ⟨2, 0⟩, ⟨3, 0⟩, ⟨4, 0⟩, ⟨5, 0⟩]] = 5 ∧
    5 < (7 * 80 + 99) / 100 := by
  decide

/-- C4 amended: the advisory fires on a `_check_limit` check exactly when
the recomputed counter has reached `int(max_calls * warn_at_percentage /
100)` (floor, not ceiling) and the thread's warned flag — reset to false
whenever the observed thread id changes — is not yet set; the check sets
the flag, so the warning is emitted at most once per thread.  The same
holds for the `wrap_tool_call` counter path, where additionally the hard
limit is checked first. -/
theorem governor_warning_floor_once (s : GovernorState) (tid : String)
    (msgs : List Msg) :
    ((checkLimit s tid msgs).warningEmitted =
      (decide (warnThreshold s ≤ countToolCalls msgs) &&
        !(if s.currentThread = some tid then s.warned else false))) ∧
    ((checkLimit s tid msgs).state.warned =
      ((if s.currentThread = some tid then s.warned else false) ||
        (checkLimit s tid msgs).warningEmitted)) ∧
    ((wrapToolCall s).warnFlag =
      (decide (s.callCount + 1 < s.maxCalls) &&
        decide (warnThreshold s ≤ s.callCount + 1) && !s.warned)) := by
  refine ⟨?_, ?_, ?_⟩
  · unfold checkLimit
    by_cases ht : s.currentThread = some tid <;>
      by_cases hf : s.maxCalls * s.warnAtPercentage / 100 ≤ countToolCalls msgs <;>
      by_cases hw : s.warned <;>
      simp [warnThreshold, ht, hf, hw]
  · unfold checkLimit
    by_cases ht : s.currentThread = some tid <;>
      by_cases hf : s.maxCalls * s.warnAtPercentage / 100 ≤ countToolCalls msgs <;>
      by_cases hw : s.warned <;>
      simp [warnThreshold, ht, hf, hw]
  · unfold wrapToolCall
    by_cases hlim : s.maxCalls ≤ s.callCount + 1 <;>
      by_cases hf : s.maxCalls * s.warnAtPercentage / 100 ≤ s.callCount + 1 <;>
      by_cases hw : s.warned <;>
      simp [WrapOutcome.warnFlag, warnThreshold, hlim, hf, hw] <;> omega

/-! ## Checkpointer theorems -/

/-- C2 counterexample.  With the connection step succeeding, a setup
failure whose message does not mention "already exists" (here:
"connection refused") does NOT propagate out of `init_checkpointer`: the
exception is caught, `_setup_done` is set (`# Continue anyway, tables
might exist`), the call returns normally, and — independently — `main.py`
wraps the whole initialization in `try/except`, so process startup
continues in every case. -/
theorem checkpointer_fatal_claim_false :
    (initCheckpointer (some "postgres://db") {} .ok (.fail "connection refused")).raisedErr
      = none ∧
    (initCheckpointer (some "postgres://db") {} .ok (.fail "connection refused")).state.setupDone
      = true ∧
    mentionsAlreadyExists "connection refused" = false ∧
    startupAborts (some "postgres://db") {} .ok (.fail "connection refused") = false := by
  decide

/-- C2 amended: an "already exists" setup failure is treated as success,
but so is EVERY other `setup()` failure — no setup outcome ever
propagates (the raise equation below does not depend on `setup` at all).
What does propagate out of `init_checkpointer` is a missing/empty
`DATABASE_URL` (the explicit `RuntimeError`) or a failure of the uncaught
connection-creation step at checkpointer.py lines 38-39 (reached only
when no checkpointer instance exists yet).  Whenever the call returns
normally, `_setup_done` is true afterwards; and even a raised
initialization error is caught at module level in `main.py`, so process
startup never aborts because of checkpointer initialization. -/
theorem checkpointer_init_swallows_failures (url : Option String)
    (st : CheckpointerState) (connect : ConnectResult) (setup : SetupResult) :
    ((initCheckpointer url st connect setup).raisedErr.isSome =
      (decide (url.getD "" = "") || (!st.checkpointerCreated && connect.isFail))) ∧
    ((initCheckpointer url st connect setup).state.setupDone =
      (!(initCheckpointer url st connect setup).raisedErr.isSome || st.setupDone)) ∧
    startupAborts url st connect setup = false := by
  unfold startupAborts initCheckpointer finishSetup
  by_cases hu : url.getD "" = ""
  · simp [hu]
  · by_cases hcr : st.checkpointerCreated
    · by_cases hd : st.setupDone
      · simp [hu, hcr, hd]
      · cases setup with
        | ok => simp [hu, hcr, hd]
        | fail msg =>
          by_cases hm : mentionsAlreadyExists msg <;> simp [hu, hcr, hd, hm]
    · cases connect with
      | ok =>
        by_cases hd : st.setupDone
        · simp [hu, hcr, hd, ConnectResult.isFail]
        · cases setup with
          | ok => simp [hu, hcr, hd, ConnectResult.isFail]
          | fail msg =>
            by_cases hm : mentionsAlreadyExists msg <;>
              simp [hu, hcr, hd, hm, ConnectResult.isFail]
      | fail cmsg => simp [hu, hcr, ConnectResult.isFail]

end FQ

namespace FQ

/-! ## Onboarding tool theorems -/

/-- C8: for an argument outside the tool's valid enum set, each of
`confirm_role_preference`, `confirm_trinity` and `confirm_location`
returns (it cannot raise: every code path of the embedded bodies is a
`return` of an envelope) a result with `success: false` and a populated
`error` field, and never reaches the persistence block. -/
theorem tools_error_envelope_on_invalid_enum
    (role et loc rp : String) (uid : Option String) (client : Bool)
    (hrole : ¬ VALID_ROLES.contains (pyNormalize role))
    (het : ¬ VALID_TRINITY.contains (pyNormalize et))
    (hrp : ¬ VALID_REMOTE.contains (pyNormalize rp)) :
    ((confirmRolePreference role uid client).success = false ∧
      (confirmRolePreference role uid client).error.isSome = true ∧
      (confirmRolePreference role uid client).writes = []) ∧
    ((confirmTrinity et uid client).success = false ∧
      (confirmTrinity et uid client).error.isSome = true ∧
      (confirmTrinity et uid client).writes = []) ∧
    ((confirmLocation loc rp uid client).success = false ∧
      (confirmLocation loc rp uid client).error.isSome = true ∧
      (confirmLocation loc rp uid client).writes = []) := by
  have hrole' : pyNormalize role ∉ VALID_ROLES := by simpa using hrole
  have het' : pyNormalize et ∉ VALID_TRINITY := by simpa using het
  have hrp' : pyNormalize rp ∉ VALID_REMOTE := by simpa using hrp
  unfold confirmRolePreference confirmTrinity confirmLocation
  simp [hrole', het', hrp']

/-- Witness for `tools_error_envelope_on_invalid_enum`: "ceo" is not a
valid role, "permanent" not a valid engagement type, "office" not a valid
remote preference. -/
theorem tools_error_envelope_on_invalid_enum_witness :
    ((confirmRolePreference "ceo" (some "u1") true).success = false ∧
      (confirmRolePreference "ceo" (some "u1") true).error.isSome = true ∧
      (confirmRolePreference "ceo" (some "u1") true).writes = []) ∧
    ((confirmTrinity "permanent" (some "u1") true).success = false ∧
      (confirmTrinity "permanent" (some "u1") true).error.isSome = true ∧
      (confirmTrinity "permanent" (some "u1") true).writes = []) ∧
    ((confirmLocation "London" "office" (some "u1") true).success = false ∧
      (confirmLocation "London" "office" (some "u1") true).error.isSome = true ∧
      (confirmLocation "London" "office" (some "u1") true).writes = []) :=
  tools_error_envelope_on_invalid_enum "ceo" "permanent" "London" "office"
    (some "u1") true (by decide) (by decide) (by decide)

/-- C9: `get_profile_status` is total over every database outcome —
client unavailable, read raising, row missing, row present — always
producing a `ProfileStatus` record (whose type carries exactly the keys
`success`, `is_new_user`, `onboarding_completed`, `current_step`,
`profile`, `message`) with `current_step` between 0 and 6 (it is a `Nat`,
so the lower bound is inherent; each assignment in the source is a
literal in 0..6). -/
theorem get_profile_status_total (db : DbRead) :
    (getProfileStatus db).currentStep ≤ 6 := by
  cases db with
  | unavailable => simp [getProfileStatus]
  | errored msg => simp [getProfileStatus]
  | notFound => simp [getProfileStatus]
  | found p =>
    simp only [getProfileStatus]
    unfold currentStepOf
    split_ifs <;> simp

/-- C10: `confirm_search_prefs` validates before persisting — for an
availability outside the valid enum, or `day_rate_min > day_rate_max`,
it returns `success: false` with an `error` field and issues no
persistence-client invocation at all (`writes = []`), leaving profile
state untouched. -/
theorem confirm_search_prefs_validates_first
    (minR maxR : Int) (avail : String) (uid : Option String) (client : Bool)
    (h : maxR < minR ∨ ¬ VALID_AVAILABILITY.contains (pyNormalize avail)) :
    (confirmSearchPrefs minR maxR avail uid client).success = false ∧
    (confirmSearchPrefs minR maxR avail uid client).error.isSome = true ∧
    (confirmSearchPrefs minR maxR avail uid client).writes = [] := by
  unfold confirmSearchPrefs
  by_cases ha : VALID_AVAILABILITY.contains (pyNormalize avail)
  · have hr : maxR < minR := h.resolve_right (by simpa using ha)
    simp [hr]
    split <;> simp
  · have ha' : pyNormalize avail ∉ VALID_AVAILABILITY := by simpa using ha
    simp [ha']

/-- Witness for `confirm_search_prefs_validates_first`: minimum 500
exceeds maximum 400. -/
theorem confirm_search_prefs_validates_first_witness :
    (confirmSearchPrefs 500 400 "immediately" (some "u1") true).success = false ∧
    (confirmSearchPrefs 500 400 "immediately" (some "u1") true).error.isSome = true ∧
    (confirmSearchPrefs 500 400 "immediately" (some "u1") true).writes = [] :=
  confirm_search_prefs_validates_first 500 400 "immediately" (some "u1") true
    (Or.inl (by decide))

/-! ## Compaction pairing (C3) -/

/-- C3: the recency-floor override of `_trim_messages` splits a
tool-call/tool-result pair, although the method's own docstring promises
"Ensures tool messages stay paired with their AI messages".  On this
well-paired 8-message history (cost 10007 tokens > the default 8000
budget) the budget-fitting suffix is shorter than
`keep_recent_messages = 6`, so the middleware force-keeps the last 6
messages — a view that STARTS with the tool-result for call id 1 while
the assistant message carrying that call was trimmed away. -/
theorem compaction_splits_pair_at_recency_floor :
    noSplitPairs [.human 40000, .ai 4 [⟨1, 0⟩], .tool 4 1, .human 4,
      .ai 4 [], .human 4, .human 4, .human 4] = true ∧
    trimMessages {} [.human 40000, .ai 4 [⟨1, 0⟩], .tool 4 1, .human 4,
      .ai 4 [], .human 4, .human 4, .human 4] =
      [.tool 4 1, .human 4, .ai 4 [], .human 4, .human 4, .human 4] ∧
    noSplitPairs [.tool 4 1, .human 4, .ai 4 [], .human 4, .human 4,
      .human 4] = false := by
  decide

end FQ

namespace FQ

/-! ## Compactor lemmas -/

lemma countTokensApproximately_nil : countTokensApproximately [] = 0 := rfl

lemma cost_mono {S L : List Msg} (h : List.Sublist S L) :
    countTokensApproximately S ≤ countTokensApproximately L := by
  refine Nat.div_le_div_right ?_
  exact List.Sublist.sum_le_sum (h.map Msg.chars) (fun a _ => Nat.zero_le a)

lemma mfs_suffix (avail : Int) (l : List Msg) : maxFittingSuffix avail l <:+ l := by
  induction l with
  | nil => simp [maxFittingSuffix]
  | cons m rest ih =>
    unfold maxFittingSuffix
    split
    · exact List.suffix_rfl
    · exact ih.trans (List.suffix_cons m rest)

lemma mfs_cost {avail : Int} {l : List Msg} (h : maxFittingSuffix avail l ≠ []) :
    (countTokensApproximately (maxFittingSuffix avail l) : Int) ≤ avail := by
  induction l with
  | nil => simp [maxFittingSuffix] at h
  | cons m rest ih =>
    by_cases hc : (countTokensApproximately (m :: rest) : Int) ≤ avail
    · unfold maxFittingSuffix
      rw [if_pos hc]
      exact hc
    · unfold maxFittingSuffix at h ⊢
      rw [if_neg hc] at h ⊢
      exact ih h

lemma mfs_of_fits {avail : Int} {l : List Msg}
    (h : (countTokensApproximately l : Int) ≤ avail) :
    maxFittingSuffix avail l = l := by
  cases l with
  | nil => rfl
  | cons m rest =>
    unfold maxFittingSuffix
    rw [if_pos h]

lemma dropWhile_head_false {p : Msg → Bool} :
    ∀ {l : List Msg} {m : Msg} {t : List Msg}, l.dropWhile p = m :: t → p m = false := by
  intro l
  induction l with
  | nil => intro m t h; simp at h
  | cons a as ih =>
    intro m t h
    by_cases hp : p a
    · rw [List.dropWhile_cons, if_pos hp] at h
      exact ih h
    · rw [List.dropWhile_cons, if_neg hp] at h
      cases h
      simpa using hp

lemma getLast?_dropTrailing {l : List Msg} {m : Msg}
    (h : (dropTrailingNonEnd l).getLast? = some m) : endOnOk m = true := by
  unfold dropTrailingNonEnd at h
  rw [List.getLast?_reverse] at h
  cases hd : l.reverse.dropWhile (fun x => !endOnOk x) with
  | nil => rw [hd] at h; simp at h
  | cons x t =>
    rw [hd] at h
    simp only [List.head?_cons, Option.some.injEq] at h
    have hx := dropWhile_head_false hd
    rw [← h]
    simpa using hx

lemma suffix_getLast? {S L : List Msg} (h : S <:+ L) (hne : S ≠ []) :
    S.getLast? = L.getLast? := by
  obtain ⟨t, rfl⟩ := h
  rw [List.getLast?_append]
  cases hS : S.getLast? with
  | none => exact absurd (List.getLast?_eq_none_iff.mp hS) hne
  | some x => simp

lemma dropTrailing_eq_self {l : List Msg}
    (h : ∀ m, l.getLast? = some m → endOnOk m = true) :
    dropTrailingNonEnd l = l := by
  have key : l.reverse.dropWhile (fun x => !endOnOk x) = l.reverse := by
    cases hl : l.reverse with
    | nil => simp
    | cons a as =>
      have ha : l.getLast? = some a := by
        rw [List.getLast?_eq_head?_reverse, hl]; rfl
      rw [List.dropWhile_cons, if_neg]
      simp [h a ha]
  unfold dropTrailingNonEnd
  rw [key, List.reverse_reverse]

lemma dropTrailing_pre (l : List Msg) : dropTrailingNonEnd l <+: l := by
  have h2 := (List.dropWhile_suffix (l := l.reverse) (fun m => !endOnOk m)).reverse
  simpa [dropTrailingNonEnd] using h2

lemma trimLast_nil (avail : Int) : trimLast [] avail = [] := rfl

lemma trimLast_suffix_dt (l : List Msg) (avail : Int) :
    trimLast l avail <:+ dropTrailingNonEnd l :=
  (List.dropWhile_suffix _).trans (mfs_suffix avail _)

lemma trimLast_sublist (l : List Msg) (avail : Int) : List.Sublist (trimLast l avail) l :=
  ((trimLast_suffix_dt l avail).sublist).trans ((dropTrailing_pre l).sublist)

lemma trimLast_cost {l : List Msg} {avail : Int} (h : trimLast l avail ≠ []) :
    (countTokensApproximately (trimLast l avail) : Int) ≤ avail := by
  unfold trimLast at h ⊢
  have hFne : maxFittingSuffix avail (dropTrailingNonEnd l) ≠ [] := by
    intro h0
    rw [h0] at h
    simp at h
  have h1 := mfs_cost hFne
  have h3 := cost_mono (List.dropWhile_sublist (l := maxFittingSuffix avail (dropTrailingNonEnd l)) (fun m => !m.isHuman))
  calc (countTokensApproximately ((maxFittingSuffix avail (dropTrailingNonEnd l)).dropWhile fun m => !m.isHuman) : Int)
      ≤ (countTokensApproximately (maxFittingSuffix avail (dropTrailingNonEnd l)) : Int) := by exact_mod_cast h3
    _ ≤ avail := h1

lemma trimLast_head_human {l : List Msg} {avail : Int} {m : Msg} {t : List Msg}
    (h : trimLast l avail = m :: t) : m.isHuman = true := by
  unfold trimLast at h
  have := dropWhile_head_false h
  simpa using this

lemma trimLast_getLast {l : List Msg} {avail : Int} {m : Msg}
    (hne : trimLast l avail ≠ []) (h : (trimLast l avail).getLast? = some m) :
    endOnOk m = true := by
  have heq := suffix_getLast? (trimLast_suffix_dt l avail) hne
  exact getLast?_dropTrailing (heq ▸ h)

lemma trimLast_idem (l : List Msg) (avail : Int) :
    trimLast (trimLast l avail) avail = trimLast l avail := by
  cases hT : trimLast l avail with
  | nil => exact trimLast_nil avail
  | cons m t =>
    have hne : trimLast l avail ≠ [] := by rw [hT]; simp
    have hcost : (countTokensApproximately (m :: t) : Int) ≤ avail := by
      have := trimLast_cost hne
      rwa [hT] at this
    have hhum : m.isHuman = true := trimLast_head_human hT
    have hlast : ∀ x, (m :: t).getLast? = some x → endOnOk x = true := by
      intro x hx
      exact trimLast_getLast hne (by rw [hT]; exact hx)
    unfold trimLast
    rw [dropTrailing_eq_self hlast, mfs_of_fits hcost, List.dropWhile_cons, if_neg]
    simp [hhum]

lemma trimLast_eq_of_length {l : List Msg} {avail : Int}
    (h : (trimLast l avail).length = l.length) : trimLast l avail = l :=
  (trimLast_sublist l avail).eq_of_length h

/-- Re-applying the trim-plus-recency-floor step to its own output (same
recency floor, same remaining budget) is the identity. -/
lemma keptCore_idem (keep : Nat) (rem : List Msg) (av : Int) :
    keptCore keep (keptCore keep rem av) av = keptCore keep rem av := by
  unfold keptCore
  by_cases hc : (trimLast rem av).length < keep ∧ keep ≤ rem.length
  · rw [if_pos hc]
    have hlen : (rem.drop (rem.length - keep)).length = keep := by
      rw [List.length_drop]; omega
    by_cases hc2 : (trimLast (rem.drop (rem.length - keep)) av).length < keep ∧
        keep ≤ (rem.drop (rem.length - keep)).length
    · rw [if_pos hc2, hlen, Nat.sub_self, List.drop_zero]
    · rw [if_neg hc2]
      have h3 : keep ≤ (trimLast (rem.drop (rem.length - keep)) av).length := by
        by_contra h4
        exact hc2 ⟨by omega, by omega⟩
      have h5 := (trimLast_sublist (rem.drop (rem.length - keep)) av).length_le
      exact trimLast_eq_of_length (by omega)
  · rw [if_neg hc]
    have hid := trimLast_idem rem av
    have hcond : ¬((trimLast (trimLast rem av) av).length < keep ∧
        keep ≤ (trimLast rem av).length) := by
      rw [hid]; omega
    rw [if_neg hcond, hid]

/-- Helper: a suffix is an infix. -/
lemma contig_of_suffix {S L : List Msg} (h : S <:+ L) : S <:+: L := by
  obtain ⟨t, rfl⟩ := h
  exact ⟨t, [], by simp⟩

/-- Helper: a suffix of a prefix is an infix. -/
lemma contig_of_suffix_of_pre {S M L : List Msg} (h1 : S <:+ M) (h2 : M <+: L) :
    S <:+: L := by
  obtain ⟨t, rfl⟩ := h1
  obtain ⟨u, rfl⟩ := h2
  exact ⟨t, u, by simp⟩

/-- Helper: an infix of a suffix is an infix. -/
lemma contig_trans_suffix {S M L : List Msg} (h1 : S <:+: M) (h2 : M <:+ L) :
    S <:+: L := by
  obtain ⟨u, v, rfl⟩ := h1
  obtain ⟨t, rfl⟩ := h2
  exact ⟨t ++ u, v, by simp⟩

lemma remaining_suffix (cfg : SummarizationConfig) (H : List Msg) :
    remainingOf cfg H <:+ H := by
  unfold remainingOf
  split
  · exact List.tail_suffix H
  · exact List.suffix_rfl

lemma kept_contig (cfg : SummarizationConfig) (H : List Msg) :
    keptOf cfg H <:+: H := by
  unfold keptOf keptCore
  split
  · exact contig_of_suffix ((List.drop_suffix _ _).trans (remaining_suffix cfg H))
  · refine contig_trans_suffix
      (contig_of_suffix_of_pre (trimLast_suffix_dt (remainingOf cfg H) (availOf cfg H))
        (dropTrailing_pre _)) (remaining_suffix cfg H)

end FQ

namespace FQ

/-- C5 counterexample, two concrete inputs against the default
configuration (max_tokens 8000, keep_system_message, keep_recent 6).
First input `[system(40000 chars)]`: the output (the preserved system
message alone) costs 10000 > 8000 tokens AND its kept suffix is empty, so
its length is not `min_recent_messages = 6` — both bounds of the claim's
disjunction are violated at once.  Second input (a 40000-char human
message followed by a short human and a trailing AI message): the output
`[human(4)]` is within budget but is NOT a suffix of the history — the
trailing AI message was removed by the `end_on=("human","tool")` filter —
and its length is not 6 either. -/
theorem compact_budget_or_floor_claim_false :
    (trimMessages {} [Msg.system 40000] = [Msg.system 40000] ∧
      8000 < countTokensApproximately (trimMessages {} [Msg.system 40000]) ∧
      (trimMessages {} [Msg.system 40000]).length < 6) ∧
    (trimMessages {} [Msg.human 40000, Msg.human 4, Msg.ai 4 []] = [Msg.human 4] ∧
      ¬ [Msg.human 4] <:+ [Msg.human 40000, Msg.human 4, Msg.ai 4 []] ∧
      countTokensApproximately [Msg.human 4] ≤ 8000 ∧
      ([Msg.human 4]).length ≠ 6) := by
  decide

/-- C5 amended: `compact(H, B)` returns an optional preserved leading
system message followed by a contiguous block `S` of consecutive messages
of `H` (not always a suffix: trailing non-human/non-tool messages are
removed by the `end_on` filter), and at least one of the following holds:
the approximate cost of `S` fits the budget remaining after the system
message (so the total output exceeds `B` only by the division rounding of
splitting the character count), or `S`'s length equals
`keep_recent_messages` (the recency-floor override), or the preserved
system message alone costs more than `B`.  When the approximate cost of
`H` is at most `B`, `H` is returned unchanged. -/
theorem compact_budget_or_floor (cfg : SummarizationConfig) (H : List Msg) :
    (countTokensApproximately H ≤ cfg.maxTokens → trimMessages cfg H = H) ∧
    ∃ sysPart S, trimMessages cfg H = sysPart ++ S ∧
      S <:+: H ∧
      sysPart.length ≤ 1 ∧
      (∀ m ∈ sysPart, H.head? = some m ∧ m.isSystem = true) ∧
      ((countTokensApproximately S : Int) ≤
          (cfg.maxTokens : Int) - countTokensApproximately sysPart ∨
        S.length = cfg.keepRecentMessages ∨
        (cfg.maxTokens : Int) < countTokensApproximately sysPart) := by
  by_cases h0 : countTokensApproximately H ≤ cfg.maxTokens
  · refine ⟨fun _ => by unfold trimMessages; rw [if_pos h0], [], H,
      by unfold trimMessages; rw [if_pos h0]; simp, ⟨[], [], by simp⟩,
      by simp, by simp, Or.inl ?_⟩
    rw [countTokensApproximately_nil]
    omega
  · have heq : trimMessages cfg H = sysPartOf cfg H ++ keptOf cfg H := by
      unfold trimMessages; rw [if_neg h0]
    refine ⟨fun hc => absurd hc h0, sysPartOf cfg H, keptOf cfg H, heq,
      kept_contig cfg H, ?_, ?_, ?_⟩
    · unfold sysPartOf
      split
      · simp [List.length_take]
      · simp
    · unfold sysPartOf
      split
      · next hex =>
        intro m hm
        cases H with
        | nil => simp [headIsSystem] at hex
        | cons h₀ Hs =>
          have hm' : m = h₀ := by
            simpa [List.take_succ_cons] using hm
          subst hm'
          refine ⟨rfl, ?_⟩
          have h2 := (Bool.and_eq_true _ _).mp hex
          simpa [headIsSystem] using h2.2
      · simp
    · unfold keptOf keptCore
      split
      · next hfl =>
        right; left
        obtain ⟨h1, h2⟩ := hfl
        rw [List.length_drop]
        omega
      · next hnf =>
        cases hT : trimLast (remainingOf cfg H) (availOf cfg H) with
        | nil =>
          by_cases hs : (countTokensApproximately (sysPartOf cfg H) : Int) ≤
              (cfg.maxTokens : Int)
          · left
            rw [countTokensApproximately_nil]
            omega
          · right; right
            omega
        | cons m t =>
          left
          have hne : trimLast (remainingOf cfg H) (availOf cfg H) ≠ [] := by
            rw [hT]; simp
          have h := trimLast_cost hne
          rw [hT] at h
          unfold availOf at h
          exact h

/-- Witness for `compact_budget_or_floor` at the default configuration
and the one-message history `[human(4)]`. -/
theorem compact_budget_or_floor_witness :
    (countTokensApproximately [Msg.human 4] ≤
        SummarizationConfig.maxTokens {} →
      trimMessages {} [Msg.human 4] = [Msg.human 4]) ∧
    ∃ sysPart S, trimMessages {} [Msg.human 4] = sysPart ++ S ∧
      S <:+: [Msg.human 4] ∧
      sysPart.length ≤ 1 ∧
      (∀ m ∈ sysPart, ([Msg.human 4]).head? = some m ∧ m.isSystem = true) ∧
      ((countTokensApproximately S : Int) ≤
          (SummarizationConfig.maxTokens {} : Int) -
            countTokensApproximately sysPart ∨
        S.length = SummarizationConfig.keepRecentMessages {} ∨
        (SummarizationConfig.maxTokens {} : Int) <
          countTokensApproximately sysPart) :=
  compact_budget_or_floor {} [Msg.human 4]

end FQ

namespace FQ

/-- C6 counterexample.  Configuration `max_tokens = 10` (keep_system and
keep_recent at their defaults).  The 10-message history (each message 40
chars = 10 tokens) starts with a human message, so no system message is
extracted; the budget-fitting suffix is a single message, shorter than
the recency floor 6, so compaction force-keeps the last 6 messages — a
block that happens to START with a system message.  Re-compacting that
output extracts this system message, leaving 5 remaining messages (below
the floor, so no override), and a zero remaining budget trims them all:
the second application returns `[system(40)], not the first application's
6-message output. -/
theorem compact_idempotence_claim_false :
    trimMessages { maxTokens := 10 }
        [Msg.human 40, Msg.human 40, Msg.human 40, Msg.human 40, Msg.system 40,
         Msg.ai 40 [], Msg.human 40, Msg.ai 40 [], Msg.human 40, Msg.human 40] =
      [Msg.system 40, Msg.ai 40 [], Msg.human 40, Msg.ai 40 [], Msg.human 40,
       Msg.human 40] ∧
    trimMessages { maxTokens := 10 }
        [Msg.system 40, Msg.ai 40 [], Msg.human 40, Msg.ai 40 [], Msg.human 40,
         Msg.human 40] =
      [Msg.system 40] ∧
    trimMessages { maxTokens := 10 }
        (trimMessages { maxTokens := 10 }
          [Msg.human 40, Msg.human 40, Msg.human 40, Msg.human 40, Msg.system 40,
           Msg.ai 40 [], Msg.human 40, Msg.ai 40 [], Msg.human 40, Msg.human 40]) ≠
      trimMessages { maxTokens := 10 }
        [Msg.human 40, Msg.human 40, Msg.human 40, Msg.human 40, Msg.system 40,
         Msg.ai 40 [], Msg.human 40, Msg.ai 40 [], Msg.human 40, Msg.human 40] := by
  decide

/-- C6 amended: compaction is deterministic (the embedding is a pure
function of history and configuration, faithfully: the only mutable state
of `SummarizationMiddleware`, `_trim_count`, never influences the output),
and it is idempotent EXCEPT when the recency-floor override force-keeps a
block whose first message is a system message that was not the history's
leading message — i.e. idempotence holds whenever `keep_system_message`
is off, or the history starts with a system message, or the compacted
output does not start with a system message. -/
theorem compact_deterministic_idempotent (cfg : SummarizationConfig) (H : List Msg)
    (hyp : cfg.keepSystemMessage = false ∨ headIsSystem H = true ∨
      headIsSystem (trimMessages cfg H) = false) :
    trimMessages cfg (trimMessages cfg H) = trimMessages cfg H := by
  by_cases h0 : countTokensApproximately H ≤ cfg.maxTokens
  · have hH : trimMessages cfg H = H := by unfold trimMessages; rw [if_pos h0]
    rw [hH, hH]
  · set R := trimMessages cfg H with hRset
    have hRdef : R = sysPartOf cfg H ++ keptOf cfg H := by
      rw [hRset]; unfold trimMessages; rw [if_neg h0]
    by_cases h1 : countTokensApproximately R ≤ cfg.maxTokens
    · unfold trimMessages
      rw [if_pos h1]
    · have hRtrim : trimMessages cfg R = sysPartOf cfg R ++ keptOf cfg R := by
        unfold trimMessages; rw [if_neg h1]
      by_cases hex : (cfg.keepSystemMessage && headIsSystem H) = true
      · cases H with
        | nil => simp [headIsSystem] at hex
        | cons h₀ Hs =>
          have hparts := (Bool.and_eq_true _ _).mp hex
          have hsys : h₀.isSystem = true := by
            simpa [headIsSystem] using hparts.2
          have hsp : sysPartOf cfg (h₀ :: Hs) = [h₀] := by
            unfold sysPartOf; rw [if_pos hex]; rfl
          have hrem : remainingOf cfg (h₀ :: Hs) = Hs := by
            unfold remainingOf; rw [if_pos hex]; rfl
          have hRcons : R = h₀ :: keptOf cfg (h₀ :: Hs) := by
            rw [hRdef, hsp]; rfl
          have hexR : (cfg.keepSystemMessage && headIsSystem R) = true := by
            rw [hRcons]
            simp [headIsSystem, hsys, hparts.1]
          have hspR : sysPartOf cfg R = [h₀] := by
            unfold sysPartOf; rw [if_pos hexR, hRcons]; rfl
          have hremR : remainingOf cfg R = keptOf cfg (h₀ :: Hs) := by
            unfold remainingOf; rw [if_pos hexR, hRcons]; rfl
          have havR : availOf cfg R = availOf cfg (h₀ :: Hs) := by
            unfold availOf; rw [hspR, hsp]
          have hKH : keptOf cfg (h₀ :: Hs) =
              keptCore cfg.keepRecentMessages Hs (availOf cfg (h₀ :: Hs)) := by
            unfold keptOf; rw [hrem]
          have hkept : keptOf cfg R = keptOf cfg (h₀ :: Hs) := by
            show keptCore cfg.keepRecentMessages (remainingOf cfg R) (availOf cfg R) =
              keptOf cfg (h₀ :: Hs)
            rw [hremR, havR, hKH]
            exact keptCore_idem _ _ _
          rw [hRtrim, hspR, hkept, hRcons]
          rfl
      · have hexH : (cfg.keepSystemMessage && headIsSystem H) = false := by
          simpa using hex
        have hsp : sysPartOf cfg H = [] := by
          unfold sysPartOf; rw [if_neg hex]
        have hrem : remainingOf cfg H = H := by
          unfold remainingOf; rw [if_neg hex]
        have hR : R = keptOf cfg H := by
          rw [hRdef, hsp, List.nil_append]
        have hexR : (cfg.keepSystemMessage && headIsSystem R) = false := by
          rcases hyp with hks | hhd | hhdR
          · simp [hks]
          · have hkf : cfg.keepSystemMessage = false := by
              cases hkb : cfg.keepSystemMessage
              · rfl
              · rw [hkb, hhd] at hexH; simp at hexH
            simp [hkf]
          · simp [hhdR]
        have hspR : sysPartOf cfg R = [] := by
          unfold sysPartOf; rw [if_neg (by simp [hexR])]
        have hremR : remainingOf cfg R = keptOf cfg H := by
          unfold remainingOf; rw [if_neg (by simp [hexR]), hR]
        have havR : availOf cfg R = availOf cfg H := by
          unfold availOf; rw [hspR, hsp]
        have hKH : keptOf cfg H =
            keptCore cfg.keepRecentMessages H (availOf cfg H) := by
          unfold keptOf; rw [hrem]
        have hkept : keptOf cfg R = keptOf cfg H := by
          show keptCore cfg.keepRecentMessages (remainingOf cfg R) (availOf cfg R) =
            keptOf cfg H
          rw [hremR, havR, hKH]
          exact keptCore_idem _ _ _
        rw [hRtrim, hspR, List.nil_append, hkept, hR]

/-- Witness for `compact_deterministic_idempotent`: a history led by a
system message (second disjunct of the hypothesis), compacted on the trim
path under `max_tokens = 10`. -/
theorem compact_deterministic_idempotent_witness :
    trimMessages { maxTokens := 10 }
        (trimMessages { maxTokens := 10 } [Msg.system 4, Msg.human 40, Msg.human 4]) =
      trimMessages { maxTokens := 10 } [Msg.system 4, Msg.human 40, Msg.human 4] :=
  compact_deterministic_idempotent { maxTokens := 10 }
    [Msg.system 4, Msg.human 40, Msg.human 4] (Or.inr (Or.inl (by decide)))

end FQ
